import Mathlib

/-!
Verification of the structured-data processing core of the
`pricepatrol-parser` package (`src/processing` module re-exported through
`src/browser.ts` in this snapshot): the path evaluator
`evaluateStructuredDataPath` and the `StructuredDataProcessor` class
(`processSelector`, `processRecipe`, `applyTransformations`,
`validateStructuredData`).

JavaScript values flowing through the evaluator are modelled by the
inductive type `JValue` (JSON-like data: null, booleans, numbers, strings,
arrays, objects-as-association-lists).  JavaScript numbers are modelled as
exact rationals; every number arising in the verified claims is an exact
small decimal, so no floating-point rounding is observable.  A missing
property (JS `undefined`) is modelled by `Option.none` at each access
site, exactly mirroring the `undefined`/`null` checks of the source.

Regular-expression matching and replacement (`new RegExp(...)` uses inside
`processSelector` and `applyTransformations`) are modelled by an abstract
`RegexEngine` oracle: `rmatch pattern flags input` returns `none` for a
failed match or `some (fullMatch, group1)` where `group1 = none` models an
absent (undefined) capture group 1 and `some g` a participating group
capturing `g`.  All theorems about the resolver hold for every engine, and
concrete engines instantiate witnesses.
-/

/-- JSON-like JavaScript value. -/
inductive JValue where
  | jnull : JValue
  | jbool : Bool → JValue
  | jnum : ℚ → JValue
  | jstr : String → JValue
  | jarr : List JValue → JValue
  | jobj : List (String × JValue) → JValue

namespace JValue

/-- Is this value the JS `null` (the `=== null` tests of the source)? -/
def isNull : JValue → Bool
  | jnull => true
  | _ => false

/-- JavaScript truthiness test (`!obj` in the source negates this):
null, `false`, `0` and `""` are falsy; every array and object is truthy. -/
def truthy : JValue → Bool
  | jnull => false
  | jbool b => b
  | jnum q => !(q.num == 0)
  | jstr s => !s.data.isEmpty
  | jarr _ => true
  | jobj _ => true

/-- Is this value a JS array (`Array.isArray`)? -/
def isArr : JValue → Bool
  | jarr _ => true
  | _ => false

/-- JS `typeof v === 'object'`: true for objects, arrays and `null`. -/
def typeofObject : JValue → Bool
  | jnull => true
  | jarr _ => true
  | jobj _ => true
  | _ => false

end JValue

/-- Value of a digit list read in base 10 (embeds `parseInt(digits, 10)`). -/
def digitsToNat (ds : List Char) : Nat :=
  ds.foldl (fun n c => n * 10 + (c.toNat - 48)) 0

/-- First binding of `key` in an association list (JS object lookup;
object literals have unique keys, so first-match lookup is exact). -/
def lookupField : List (String × JValue) → String → Option JValue
  | [], _ => none
  | (k, v) :: rest, key => if k = key then some v else lookupField rest key

/-- A string that is the canonical decimal form of an array index, the way
JavaScript coerces property keys into array indices (`"0"` yes, `"00"` no). -/
def canonicalIndex (s : String) : Option Nat :=
  if s.data ≠ [] ∧ s.data.all Char.isDigit then
    let n := digitsToNat s.data
    if Nat.repr n = s then some n else none
  else none

/-- JS property read `v[key]`, returning `none` for `undefined`:
object own-property lookup; arrays expose canonical numeric indices and
`length`; strings expose characters and `length`; primitives have no
own properties that the evaluator can hit. -/
def getProp (v : JValue) (key : String) : Option JValue :=
  match v with
  | .jobj fields => lookupField fields key
  | .jarr a =>
      if key = "length" then some (.jnum (mkRat (Int.ofNat a.length) 1))
      else
        match canonicalIndex key with
        | some i => a[i]?
        | none => none
  | .jstr s =>
      if key = "length" then some (.jnum (mkRat (Int.ofNat s.data.length) 1))
      else
        match canonicalIndex key with
        | some i => (s.data[i]?).map (fun c => .jstr (String.mk [c]))
        | none => none
  | _ => none

/-- Smallest exponent `k` with `10^k` divisible by `d` (for denominators
whose only prime factors are 2 and 5, i.e. every value `parseFloat`
produces in this model). -/
def decExp (d : Nat) : Option Nat :=
  (List.range 40).find? (fun k => 10 ^ k % d == 0)

/-- Decimal rendering of a rational, embedding JS number-to-string for the
finite-decimal numbers the evaluator can meet (integers print with no
point; fractions print their exact shortest decimal expansion). -/
def numToString (q : ℚ) : String :=
  let sign := if q.num < 0 then "-" else ""
  match decExp q.den with
  | some k =>
      let scaled := q.num.natAbs * (10 ^ k / q.den)
      let ip := scaled / 10 ^ k
      let fp := scaled % 10 ^ k
      if fp = 0 then sign ++ Nat.repr ip
      else
        let fs := Nat.repr fp
        let pad := String.mk (List.replicate (k - fs.data.length) '0')
        sign ++ Nat.repr ip ++ "." ++ pad ++ fs
  | none => sign ++ Nat.repr q.num.natAbs ++ "/" ++ Nat.repr q.den

mutual

/-- JS `String(v)` coercion: strings pass through, numbers and booleans
print, arrays join their stringified elements with commas (null elements
print empty), plain objects print the `[object Object]` tag. -/
def jsToString : JValue → String
  | .jnull => "null"
  | .jbool b => if b then "true" else "false"
  | .jnum q => numToString q
  | .jstr s => s
  | .jarr a => String.intercalate "," (jsToStringList a)
  | .jobj _ => "[object Object]"

/-- Stringify every array element for `Array.prototype.join`. -/
def jsToStringList : List JValue → List String
  | [] => []
  | v :: rest =>
      (if v.isNull then "" else jsToString v) :: jsToStringList rest

end

/-- Parse one bracket group body: after a `[`, require one or more digits
followed by `]`; return the index and the remaining characters. -/
def parseIdx (cs : List Char) : Option (Nat × List Char) :=
  let ds := cs.takeWhile Char.isDigit
  let rest := cs.dropWhile Char.isDigit
  if ds.isEmpty then none
  else
    match rest with
    | ']' :: r => some (digitsToNat ds, r)
    | _ => none

/-- Fuel-indexed scan for every occurrence of a bracket group, mirroring
the global-regex scan of the source: at each `[` try to read `digits]`;
on failure resume the search right after that `[`; on success continue
after the `]`.  The fuel argument only bounds recursion depth and is
always sufficient when started at the length of the input. -/
def scanIndicesAux : Nat → List Char → List Nat
  | 0, _ => []
  | _, [] => []
  | fuel + 1, c :: rest =>
      if c = '[' then
        match parseIdx rest with
        | some (n, r) => n :: scanIndicesAux fuel r
        | none => scanIndicesAux fuel rest
      else scanIndicesAux fuel rest

/-- All bracket indices occurring in a segment suffix, left to right
(embeds scanning the segment with a global bracket-group regex). -/
def scanIndices (cs : List Char) : List Nat :=
  scanIndicesAux cs.length cs

/-- Apply one array index after another: at each step the cursor must be
an array; a missing element, a null element, or a non-array cursor aborts
with null. -/
def applyIndices : JValue → List Nat → Option JValue
  | c, [] => some c
  | c, i :: rest =>
      match c with
      | .jarr a =>
          match a[i]? with
          | some v => if v.isNull then none else applyIndices v rest
          | none => none
      | _ => none

/-- Split a character list at every `'.'` (embeds `path.split('.')`). -/
def splitDot : List Char → List String
  | [] => [""]
  | '.' :: rest => "" :: splitDot rest
  | c :: rest =>
      match splitDot rest with
      | [] => [String.mk [c]]
      | p :: ps => String.mk (c :: p.data) :: ps

/-- Process one path segment against the cursor.  A segment containing
both `[` and `]` takes the bracket route: the characters before the first
`[` are the (possibly empty) property name, the suffix is scanned for
bracket indices (no index at all aborts with null), the cursor first
advances into the property when one is named, then each index is applied
in order.  Any other segment is a plain property access.  `none` models
the evaluator returning null. -/
def evalSegment (current : JValue) (part : String) : Option JValue :=
  if part.data.contains '[' && part.data.contains ']' then
    let propertyName : String := String.mk (part.data.takeWhile (fun c => c ≠ '['))
    let indexPart : List Char := part.data.dropWhile (fun c => c ≠ '[')
    let indices := scanIndices indexPart
    if indices.isEmpty then none
    else
      if propertyName.data.isEmpty then applyIndices current indices
      else
        match getProp current propertyName with
        | some v => if v.isNull then none else applyIndices v indices
        | none => none
  else
    match getProp current part with
    | some v => if v.isNull then none else some v
    | none => none

/-- The path evaluator (`evaluateStructuredDataPath` in the source):
falsy root or empty path gives null; otherwise the path splits on `.` and
each segment advances the cursor, any missing/null step short-circuiting
to null; a surviving final cursor is coerced with `String(...)`. -/
def evaluateStructuredDataPath (obj : JValue) (path : String) : Option String :=
  if !obj.truthy || path.data.isEmpty then none
  else
    match (splitDot path.data).foldlM evalSegment obj with
    | some v => if v.isNull then none else some (jsToString v)
    | none => none

/-- Value flowing through the transformation pipeline: the evaluator hands
in a string, `parseNumber`/`parseBoolean` may convert it. -/
inductive TValue where
  | str : String → TValue
  | num : ℚ → TValue
  | bool : Bool → TValue
deriving DecidableEq

namespace TValue

/-- Is the pipeline value currently a string (`typeof v === 'string'`)? -/
def isStr : TValue → Bool
  | str _ => true
  | _ => false

end TValue

/-- Abstract JS regular-expression engine.  `rmatch pattern flags input`
models `input.match(new RegExp(pattern, flags))`: `none` for no match,
`some (full, g1)` for a match with full text `full` and capture group 1
`g1` (`none` when the group is absent or did not participate, `some g`
when it captured `g`, possibly empty).  `rreplace pattern flags repl
input` models `input.replace(new RegExp(pattern, flags), repl)`. -/
structure RegexEngine where
  rmatch : String → Option String → String → Option (String × Option String)
  rreplace : String → Option String → String → String → String

/-- JS `match[1] || match[0]`: capture group 1 when it is present and
truthy (non-empty), else the full match. -/
def jsGroupOrFull (g1 : Option String) (full : String) : String :=
  match g1 with
  | some g => if g.data.isEmpty then full else g
  | none => full

/-- Exponent suffix of a JS float literal (`parseFloat` tail): an optional
sign then digits; an incomplete exponent contributes nothing. -/
def parseExp (cs : List Char) : Int :=
  match cs with
  | '-' :: rest =>
      let ds := rest.takeWhile Char.isDigit
      if ds.isEmpty then 0 else -(digitsToNat ds : Int)
  | '+' :: rest =>
      let ds := rest.takeWhile Char.isDigit
      if ds.isEmpty then 0 else (digitsToNat ds : Int)
  | _ =>
      let ds := cs.takeWhile Char.isDigit
      if ds.isEmpty then 0 else (digitsToNat ds : Int)

/-- JS `parseFloat`: skip leading whitespace, read an optional sign, an
integer digit run, an optional fraction after `.`, and an optional
exponent; ignore any trailing junk; `none` models NaN (no digit at all).
The call site in `parseNumber` pre-strips its input to digits, `.` and
`-`, so the infinity literal can never arise there. -/
def jsParseFloat (s : String) : Option ℚ :=
  let cs := s.data.dropWhile Char.isWhitespace
  let signNeg : Bool :=
    match cs with
    | '-' :: _ => true
    | _ => false
  let cs1 : List Char :=
    match cs with
    | '-' :: rest => rest
    | '+' :: rest => rest
    | _ => cs
  let intDs := cs1.takeWhile Char.isDigit
  let cs2 := cs1.dropWhile Char.isDigit
  let fracDs : List Char :=
    match cs2 with
    | '.' :: rest => rest.takeWhile Char.isDigit
    | _ => []
  let cs3 : List Char :=
    match cs2 with
    | '.' :: rest => rest.dropWhile Char.isDigit
    | _ => cs2
  if intDs.isEmpty && fracDs.isEmpty then none
  else
    let fracLen := fracDs.length
    let mantNum : Int := Int.ofNat (digitsToNat intDs * 10 ^ fracLen + digitsToNat fracDs)
    let signedNum : Int := if signNeg then -mantNum else mantNum
    let e : Int :=
      match cs3 with
      | 'e' :: rest => parseExp rest
      | 'E' :: rest => parseExp rest
      | _ => 0
    match e with
    | .ofNat k => some (mkRat (signedNum * Int.ofNat (10 ^ k)) (10 ^ fracLen))
    | .negSucc k => some (mkRat signedNum (10 ^ fracLen * 10 ^ (k + 1)))

/-- Strip every character other than a digit, `.` or `-` (the literal
`replace(/[^\d.-]/g, '')` of `parseNumber`). -/
def stripNonNumeric (s : String) : String :=
  String.mk (s.data.filter (fun c => c.isDigit || c = '.' || c = '-'))

/-- Kind tag of a transformation. -/
inductive TransformType where
  | regex
  | replace
  | trim
  | lowercase
  | uppercase
  | parseNumber
  | parseBoolean
deriving DecidableEq

/-- One declarative transformation (`FieldTransformation` of `types.ts`). -/
structure FieldTransformation where
  type : TransformType
  pattern : Option String := none
  replacement : Option String := none
  flags : Option String := none

/-- One step of `applyTransformations`: each kind acts only when the
current value is a string (and, for `regex`/`replace`, when its pattern —
and for `replace` also its replacement — is a truthy, i.e. non-empty,
string); in every other situation the value passes through unchanged. -/
def applyTransformation (E : RegexEngine) (v : TValue) (t : FieldTransformation) : TValue :=
  match t.type with
  | .regex =>
      match t.pattern, v with
      | some pat, .str s =>
          if pat.data.isEmpty then v
          else
            match E.rmatch pat t.flags s with
            | some (full, g1) => .str (jsGroupOrFull g1 full)
            | none => v
      | _, _ => v
  | .replace =>
      match t.pattern, t.replacement, v with
      | some pat, some rep, .str s =>
          if pat.data.isEmpty || rep.data.isEmpty then v
          else .str (E.rreplace pat t.flags rep s)
      | _, _, _ => v
  | .trim =>
      match v with
      | .str s => .str s.trim
      | _ => v
  | .lowercase =>
      match v with
      | .str s => .str s.toLower
      | _ => v
  | .uppercase =>
      match v with
      | .str s => .str s.toUpper
      | _ => v
  | .parseNumber =>
      match v with
      | .str s =>
          match jsParseFloat (stripNonNumeric s) with
          | some q => .num q
          | none => v
      | _ => v
  | .parseBoolean =>
      match v with
      | .str s => .bool (["true", "yes", "1", "on", "enabled"].contains s.toLower)
      | _ => v

/-- The transformation pipeline: fold the steps left to right, each
consuming the prior output (the `for` loop of `applyTransformations`;
an absent or empty list is the identity). -/
def applyTransformations (E : RegexEngine) (v : TValue) (ts : List FieldTransformation) : TValue :=
  ts.foldl (applyTransformation E) v

/-- The standalone post-pipeline regex step of `processSelector`: only a
truthy (non-empty) `selector.regex` applied to a string value can change
anything; the match result prefers group 1 via JS truthiness. -/
def applyRegexStep (E : RegexEngine) (rx : Option String) (v : TValue) : TValue :=
  match rx, v with
  | some pat, .str s =>
      if pat.data.isEmpty then v
      else
        match E.rmatch pat none s with
        | some (full, g1) => .str (jsGroupOrFull g1 full)
        | none => v
  | _, _ => v

/-- The five data sources a selector can address. -/
inductive Source where
  | jsonLd
  | metaTags
  | dataLayers
  | microdata
  | customDataLayers
deriving DecidableEq

/-- Per-field selector (`FieldSelector` of `types.ts`): at most one path
per source, an optional standalone regex, an ordered transformation
list. -/
structure FieldSelector where
  jsonLd : Option String := none
  metaTags : Option String := none
  dataLayers : Option String := none
  microdata : Option String := none
  customDataLayers : Option String := none
  regex : Option String := none
  transformations : List FieldTransformation := []

/-- The resolver input payload (`StructuredDataPayload` of `types.ts`).
The first three sources are required by the type, the last two optional
(`none` models an absent field, i.e. JS `undefined`). -/
structure StructuredDataPayload where
  jsonLd : List JValue := []
  metaTags : List (String × String) := []
  dataLayers : List (String × JValue) := []
  microdata : Option (List JValue) := none
  customDataLayers : Option (List (String × JValue)) := none
  url : String := ""
  pageTitle : String := ""
  timestamp : String := ""
  extractorVersion : String := ""

/-- Annotated resolution result (`ExtractedField` of `types.ts`). -/
structure ExtractedField where
  value : TValue
  source : Source
  path : String
  confidence : ℚ
deriving DecidableEq

/-- The selector's configured path for a source (`selector[method.key]`). -/
def selectorPath (sel : FieldSelector) : Source → Option String
  | .jsonLd => sel.jsonLd
  | .metaTags => sel.metaTags
  | .dataLayers => sel.dataLayers
  | .microdata => sel.microdata
  | .customDataLayers => sel.customDataLayers

/-- The payload's data for a source (`data[method.source]`), as the JValue
handed to the path evaluator; `none` models an absent optional source.
A present source is always a JS array or object, hence always truthy. -/
def payloadSource (data : StructuredDataPayload) : Source → Option JValue
  | .jsonLd => some (.jarr data.jsonLd)
  | .metaTags => some (.jobj (data.metaTags.map (fun kv => (kv.1, .jstr kv.2))))
  | .dataLayers => some (.jobj data.dataLayers)
  | .microdata => data.microdata.map .jarr
  | .customDataLayers => data.customDataLayers.map .jobj

/-- Confidence table, tied 1:1 to the source (the `methods` array of
`processSelector`). -/
def sourceConfidence : Source → ℚ
  | .jsonLd => mkRat 9 10
  | .metaTags => mkRat 8 10
  | .dataLayers => mkRat 7 10
  | .microdata => mkRat 6 10
  | .customDataLayers => mkRat 5 10

/-- Priority order of the `methods` array of `processSelector`. -/
def sourceOrder : List Source :=
  [.jsonLd, .metaTags, .dataLayers, .microdata, .customDataLayers]

/-- Position of a source in the priority order. -/
def sourceIndex : Source → Nat
  | .jsonLd => 0
  | .metaTags => 1
  | .dataLayers => 2
  | .microdata => 3
  | .customDataLayers => 4

/-- One iteration of the `processSelector` loop for one source: the
selector must carry a truthy path for it and the payload must carry the
source; the path evaluator must return a hit that is neither null nor the
`"Not found"` sentinel; then the pipeline and the standalone regex step
run and the annotated field is produced.  `none` means the loop falls
through to the next source. -/
def attempt (E : RegexEngine) (data : StructuredDataPayload) (sel : FieldSelector)
    (src : Source) : Option ExtractedField :=
  match selectorPath sel src, payloadSource data src with
  | some p, some d =>
      if p.data.isEmpty then none
      else
        match evaluateStructuredDataPath d p with
        | some r =>
            if r = "Not found" then none
            else
              let v := applyTransformations E (.str r) sel.transformations
              some { value := applyRegexStep E sel.regex v
                     source := src
                     path := p
                     confidence := sourceConfidence src }
        | none => none
  | _, _ => none

/-- `processSelector`: try the five sources in priority order, first hit
wins, otherwise null. -/
def processSelector (E : RegexEngine) (data : StructuredDataPayload)
    (sel : FieldSelector) : Option ExtractedField :=
  sourceOrder.findSome? (attempt E data sel)

/-- `processRecipe`: resolve every named selector independently and keep
exactly the entries that produced a field. -/
def processRecipe (E : RegexEngine) (data : StructuredDataPayload)
    (selectors : List (String × FieldSelector)) : List (String × ExtractedField) :=
  selectors.filterMap (fun fs => (processSelector E data fs.2).map (fun f => (fs.1, f)))

/-- Does an optional property hold a JS array? (`Array.isArray(x)`). -/
def optIsArr : Option JValue → Bool
  | some v => v.isArr
  | _ => false

/-- Does an optional property satisfy `typeof x === 'object'`?  Mirrors
the JS quirk that `null` and arrays do; `undefined` does not. -/
def optTypeofObject : Option JValue → Bool
  | some v => v.typeofObject
  | _ => false

/-- Does an optional property hold a string? (`typeof x === 'string'`). -/
def optIsStr : Option JValue → Bool
  | some (.jstr _) => true
  | _ => false

/-- `validateStructuredData`: the structural payload predicate, checking
the candidate is a non-null `typeof`-object whose `jsonLd` is an array,
whose `metaTags` and `dataLayers` are `typeof`-objects and whose four
metadata fields are strings. -/
def validateStructuredData (d : JValue) : Bool :=
  d.typeofObject && !d.isNull &&
  optIsArr (getProp d "jsonLd") &&
  optTypeofObject (getProp d "metaTags") &&
  optTypeofObject (getProp d "dataLayers") &&
  optIsStr (getProp d "url") &&
  optIsStr (getProp d "pageTitle") &&
  optIsStr (getProp d "timestamp") &&
  optIsStr (getProp d "extractorVersion")

/-- A regex engine that never matches and never rewrites, for witnesses
that exercise no regex behaviour. -/
def inertEngine : RegexEngine where
  rmatch := fun _ _ _ => none
  rreplace := fun _ _ _ s => s

/-- Payload exercising the three top priority sources at once. -/
def w1data : StructuredDataPayload :=
  { jsonLd := [.jobj [("name", .jstr "Widget")]]
    metaTags := [("og:title", "Meta Widget")]
    dataLayers := [("dataLayer", .jarr [.jobj [("name", .jstr "DL Widget")]])] }

/-- Selector configuring jsonLd, metaTags and dataLayers paths, all
resolvable against `w1data`. -/
def w1sel : FieldSelector :=
  { jsonLd := some "0.name"
    metaTags := some "og:title"
    dataLayers := some "dataLayer[0].name" }

/-- The `parseNumber` transformation record. -/
def parseNumberT : FieldTransformation := { type := .parseNumber }

/-- Payload of the transformation-ordering scenario: a jsonLd product
whose offer price is the string `"1399.00"`. -/
def priceData : StructuredDataPayload :=
  { jsonLd := [.jobj [("offers", .jobj [("price", .jstr "1399.00")])]] }

/-- Selector of the transformation-ordering scenario. -/
def priceSel : FieldSelector :=
  { jsonLd := some "0.offers.price", transformations := [parseNumberT] }

/-- An engine behaving like the JS regex `a(b*)` on the input `"ac"`:
the match succeeds with full text `"a"` while capture group 1
participates and captures the empty string. -/
def emptyGroupEngine : RegexEngine where
  rmatch := fun _ _ _ => some ("a", some "")
  rreplace := fun _ _ _ s => s

/-- Iterated plain property access with the loop's short-circuit: step
into each named property in turn; a missing property (undefined) or a
null cursor aborts with null. -/
def propChain : JValue → List String → Option JValue
  | c, [] => some c
  | c, p :: rest =>
      match getProp c p with
      | some v => if v.isNull then none else propChain v rest
      | none => none
/-- Unpack a successful `attempt`: the produced field names the tried
source and its table confidence, and records a configured truthy path, a
present payload source, and an evaluator hit distinct from the sentinel. -/
theorem attempt_some_spec {E : RegexEngine} {data : StructuredDataPayload}
    {sel : FieldSelector} {src : Source} {f : ExtractedField}
    (h : attempt E data sel src = some f) :
    f.source = src ∧ f.confidence = sourceConfidence src ∧
    ∃ p d r, selectorPath sel src = some p ∧ p.data.isEmpty = false ∧
      payloadSource data src = some d ∧
      evaluateStructuredDataPath d p = some r ∧ r ≠ "Not found" ∧ f.path = p ∧
      f.value = applyRegexStep E sel.regex
        (applyTransformations E (.str r) sel.transformations) := by
  unfold attempt at h
  split at h
  case h_2 => exact absurd h (by simp)
  case h_1 p d hp hd =>
    split at h
    case isTrue => exact absurd h (by simp)
    case isFalse hpe =>
      cases hev : evaluateStructuredDataPath d p with
      | none => rw [hev] at h; exact absurd h (by simp)
      | some r =>
          rw [hev] at h
          dsimp only at h
          split at h
          case isTrue => exact absurd h (by simp)
          case isFalse hnf =>
            cases h
            refine ⟨rfl, rfl, p, d, r, hp, ?_, hd, hev, hnf, rfl, rfl⟩
            simpa using hpe

/-- A `findSome?` success comes from the first list position whose result
is not `none`; every earlier position produced `none`. -/
theorem findSome?_eq_some_spec {α β : Type _} {f : α → Option β} :
    ∀ {l : List α} {b : β}, l.findSome? f = some b →
      ∃ i : Fin l.length, f (l.get i) = some b ∧
        ∀ j : Fin l.length, j.val < i.val → f (l.get j) = none := by
  intro l
  induction l with
  | nil => intro b h; simp at h
  | cons a as ih =>
      intro b h
      rw [List.findSome?_cons] at h
      cases ha : f a with
      | some c =>
          rw [ha] at h
          refine ⟨⟨0, Nat.succ_pos _⟩, by simpa [ha] using h, ?_⟩
          intro j hj
          exact absurd hj (Nat.not_lt_zero _)
      | none =>
          rw [ha] at h
          obtain ⟨i, hi, hprev⟩ := ih h
          refine ⟨i.succ, by simpa using hi, ?_⟩
          intro j hj
          match j with
          | ⟨0, _⟩ => exact ha
          | ⟨jj + 1, hjlt⟩ =>
              exact hprev ⟨jj, Nat.lt_of_succ_lt_succ hjlt⟩
                (Nat.lt_of_succ_lt_succ hj)

/-- The priority list holds each source at its `sourceIndex` position. -/
theorem sourceOrder_get (i : Fin sourceOrder.length) :
    sourceIndex (sourceOrder.get i) = i.val := by
  fin_cases i <;> rfl

/-- Bound of `sourceIndex` by the priority list length. -/
theorem sourceIndex_lt_length (src : Source) : sourceIndex src < sourceOrder.length := by
  cases src <;> decide

/-- Reading the priority list back at a source's index gives the source. -/
theorem sourceOrder_get_index (src : Source) :
    sourceOrder.get ⟨sourceIndex src, sourceIndex_lt_length src⟩ = src := by
  cases src <;> rfl

/-- Claim C1: `processSelector` tries the five sources in the fixed order
jsonLd, metaTags, dataLayers, microdata, customDataLayers; the winner is a
source that is configured with a truthy path in the selector, present in
the payload, and whose path evaluation hits (neither null nor the
sentinel), with every strictly earlier source having fallen through; the
returned confidence is determined solely by the winning source through
the fixed table 0.9 / 0.8 / 0.7 / 0.6 / 0.5; and whenever the jsonLd path
is set and resolvable the jsonLd result wins with confidence 0.9. -/
theorem selector_priority_and_confidence :
    (∀ (E : RegexEngine) (data : StructuredDataPayload) (sel : FieldSelector)
        (f : ExtractedField), processSelector E data sel = some f →
        f.confidence = sourceConfidence f.source ∧
        (∃ p d r, selectorPath sel f.source = some p ∧ p.data.isEmpty = false ∧
          payloadSource data f.source = some d ∧
          evaluateStructuredDataPath d p = some r ∧ r ≠ "Not found") ∧
        (∀ src : Source, sourceIndex src < sourceIndex f.source →
          attempt E data sel src = none))
  ∧ (sourceConfidence .jsonLd = 9 / 10 ∧ sourceConfidence .metaTags = 8 / 10 ∧
      sourceConfidence .dataLayers = 7 / 10 ∧ sourceConfidence .microdata = 6 / 10 ∧
      sourceConfidence .customDataLayers = 5 / 10)
  ∧ (∀ (E : RegexEngine) (data : StructuredDataPayload) (sel : FieldSelector)
        (p r : String), sel.jsonLd = some p → p.data.isEmpty = false →
        evaluateStructuredDataPath (.jarr data.jsonLd) p = some r → r ≠ "Not found" →
        ∃ f, processSelector E data sel = some f ∧
          f.source = .jsonLd ∧ f.confidence = 9 / 10) := by
  refine ⟨?_, ⟨?_, ?_, ?_, ?_, ?_⟩, ?_⟩
  · intro E data sel f h
    rw [processSelector] at h
    obtain ⟨i, hi, hprev⟩ := findSome?_eq_some_spec h
    obtain ⟨hsrc, hconf, p, d, r, hp, hpe, hd, hev, hnf, _, _⟩ := attempt_some_spec hi
    have hidx : sourceIndex f.source = i.val := by rw [hsrc]; exact sourceOrder_get i
    refine ⟨hconf.trans (by rw [hsrc]), ⟨p, d, r, by rw [hsrc]; exact hp, hpe,
      by rw [hsrc]; exact hd, hev, hnf⟩, ?_⟩
    intro src hlt
    rw [hidx] at hlt
    have := hprev ⟨sourceIndex src, Nat.lt_trans hlt i.isLt⟩ hlt
    rwa [sourceOrder_get_index src] at this
  · norm_num [sourceConfidence, Rat.mkRat_eq_div]
  · norm_num [sourceConfidence, Rat.mkRat_eq_div]
  · norm_num [sourceConfidence, Rat.mkRat_eq_div]
  · norm_num [sourceConfidence, Rat.mkRat_eq_div]
  · norm_num [sourceConfidence, Rat.mkRat_eq_div]
  · intro E data sel p r hp hpe hev hnf
    have ha : attempt E data sel .jsonLd = some
        { value := applyRegexStep E sel.regex
            (applyTransformations E (.str r) sel.transformations)
          source := .jsonLd, path := p, confidence := sourceConfidence .jsonLd } := by
      unfold attempt
      rw [show selectorPath sel .jsonLd = some p from hp]
      dsimp only [payloadSource]
      rw [hpe, hev]
      simp [hnf]
    refine ⟨{ value := applyRegexStep E sel.regex
                (applyTransformations E (.str r) sel.transformations)
              source := .jsonLd, path := p, confidence := sourceConfidence .jsonLd },
            ?_, rfl, ?_⟩
    · rw [processSelector, sourceOrder, List.findSome?_cons, ha]
    · norm_num [sourceConfidence, Rat.mkRat_eq_div]

theorem selector_priority_and_confidence_witness :
    ∃ f, processSelector inertEngine w1data w1sel = some f ∧
      f.source = .jsonLd ∧ f.confidence = 9 / 10 :=
  selector_priority_and_confidence.2.2 inertEngine w1data w1sel "0.name" "Widget"
    rfl rfl (by decide) (by decide)

/-- Claim C5: a source whose configured path evaluates to null or to the
literal `"Not found"` sentinel is a miss — its loop iteration produces
nothing, so the resolver proceeds — and when every source's iteration
misses, `processSelector` returns null; the resolver is total, returning
null or a field and never an error. -/
theorem miss_semantics :
    (∀ (E : RegexEngine) (data : StructuredDataPayload) (sel : FieldSelector)
        (src : Source) (p : String) (d : JValue),
        selectorPath sel src = some p → payloadSource data src = some d →
        (evaluateStructuredDataPath d p = none ∨
          evaluateStructuredDataPath d p = some "Not found") →
        attempt E data sel src = none)
  ∧ (∀ (E : RegexEngine) (data : StructuredDataPayload) (sel : FieldSelector),
        (∀ src ∈ sourceOrder, attempt E data sel src = none) →
        processSelector E data sel = none)
  ∧ (∀ (E : RegexEngine) (data : StructuredDataPayload) (sel : FieldSelector),
        processSelector E data sel = none ∨
          ∃ f, processSelector E data sel = some f) := by
  refine ⟨?_, ?_, ?_⟩
  · intro E data sel src p d hp hd hmiss
    unfold attempt
    rw [hp, hd]
    dsimp only
    by_cases hpe : p.data.isEmpty = true
    · rw [if_pos hpe]
    · rw [if_neg hpe]
      rcases hmiss with hm | hm <;> simp [hm]
  · intro E data sel hall
    rw [processSelector]
    exact List.findSome?_eq_none_iff.mpr hall
  · intro E data sel
    cases h : processSelector E data sel with
    | none => exact Or.inl rfl
    | some f => exact Or.inr ⟨f, rfl⟩

theorem miss_semantics_witness :
    attempt inertEngine { jsonLd := [.jobj [("sentinel", .jstr "Not found")]] }
      { jsonLd := some "0.sentinel" } .jsonLd = none :=
  miss_semantics.1 inertEngine _ _ .jsonLd "0.sentinel"
    (.jarr [.jobj [("sentinel", .jstr "Not found")]]) rfl rfl (Or.inr (by decide))

/-- Claim C8: `processRecipe` resolves each named selector independently;
a name appears in the result exactly when its selector resolved, carrying
that resolution — entries resolving to null are omitted entirely, and
every independently satisfiable entry of the same call is present. -/
theorem recipe_omits_misses :
    (∀ (E : RegexEngine) (data : StructuredDataPayload)
        (sels : List (String × FieldSelector)) (name : String) (f : ExtractedField),
        (name, f) ∈ processRecipe E data sels →
        ∃ sel, (name, sel) ∈ sels ∧ processSelector E data sel = some f)
  ∧ (∀ (E : RegexEngine) (data : StructuredDataPayload)
        (sels : List (String × FieldSelector)) (name : String)
        (sel : FieldSelector) (f : ExtractedField),
        (name, sel) ∈ sels → processSelector E data sel = some f →
        (name, f) ∈ processRecipe E data sels)
  ∧ (∀ (E : RegexEngine) (data : StructuredDataPayload)
        (sels : List (String × FieldSelector)) (name : String),
        (∀ sel, (name, sel) ∈ sels → processSelector E data sel = none) →
        ∀ f, (name, f) ∉ processRecipe E data sels) := by
  have h1 : ∀ (E : RegexEngine) (data : StructuredDataPayload)
      (sels : List (String × FieldSelector)) (name : String) (f : ExtractedField),
      (name, f) ∈ processRecipe E data sels →
      ∃ sel, (name, sel) ∈ sels ∧ processSelector E data sel = some f := by
    intro E data sels name f h
    rw [processRecipe, List.mem_filterMap] at h
    obtain ⟨⟨n, sel⟩, hmem, heq⟩ := h
    rw [Option.map_eq_some'] at heq
    obtain ⟨g, hg, hpair⟩ := heq
    cases hpair
    exact ⟨sel, hmem, hg⟩
  refine ⟨h1, ?_, ?_⟩
  · intro E data sels name sel f hmem hsome
    rw [processRecipe, List.mem_filterMap]
    exact ⟨(name, sel), hmem, by rw [hsome]; rfl⟩
  · intro E data sels name hnone f hf
    obtain ⟨sel, hmem, hsome⟩ := h1 E data sels name f hf
    rw [hnone sel hmem] at hsome
    exact Option.noConfusion hsome

theorem recipe_omits_misses_witness :
    ("price", { value := .str "9.99", source := .jsonLd, path := "0.price",
                confidence := mkRat 9 10 : ExtractedField }) ∈
      processRecipe inertEngine { jsonLd := [.jobj [("price", .jstr "9.99")]] }
        [("price", { jsonLd := some "0.price" }), ("missing", { metaTags := some "none" })] :=
  recipe_omits_misses.2.1 inertEngine _ _ "price" { jsonLd := some "0.price" } _
    (List.mem_cons_self _ _) (by decide)

/-- Claim C7: `validateStructuredData` is a total boolean structural
predicate, true exactly when the candidate is a non-null `typeof`-object
whose `jsonLd` property is an array, whose `metaTags` and `dataLayers`
properties satisfy `typeof x === 'object'`, and whose `url`, `pageTitle`,
`timestamp` and `extractorVersion` properties are strings; in particular
any candidate whose `jsonLd` is not an array is rejected. -/
theorem validate_structural_iff :
    (∀ d : JValue, validateStructuredData d = true ↔
      (d.typeofObject = true ∧ d.isNull = false ∧
        optIsArr (getProp d "jsonLd") = true ∧
        optTypeofObject (getProp d "metaTags") = true ∧
        optTypeofObject (getProp d "dataLayers") = true ∧
        optIsStr (getProp d "url") = true ∧
        optIsStr (getProp d "pageTitle") = true ∧
        optIsStr (getProp d "timestamp") = true ∧
        optIsStr (getProp d "extractorVersion") = true))
  ∧ (∀ d : JValue, optIsArr (getProp d "jsonLd") = false →
      validateStructuredData d = false) := by
  have h1 : ∀ d : JValue, validateStructuredData d = true ↔
      (d.typeofObject = true ∧ d.isNull = false ∧
        optIsArr (getProp d "jsonLd") = true ∧
        optTypeofObject (getProp d "metaTags") = true ∧
        optTypeofObject (getProp d "dataLayers") = true ∧
        optIsStr (getProp d "url") = true ∧
        optIsStr (getProp d "pageTitle") = true ∧
        optIsStr (getProp d "timestamp") = true ∧
        optIsStr (getProp d "extractorVersion") = true) := by
    intro d
    rw [validateStructuredData]
    simp [Bool.and_eq_true, and_assoc]
  refine ⟨h1, ?_⟩
  intro d harr
  cases hv : validateStructuredData d with
  | false => rfl
  | true =>
      have := ((h1 d).mp hv).2.2.1
      rw [harr] at this
      exact absurd this (by decide)

theorem validate_structural_iff_witness :
    validateStructuredData (.jobj [("jsonLd", .jstr "not a sequence"),
      ("metaTags", .jobj []), ("dataLayers", .jobj []), ("url", .jstr "u"),
      ("pageTitle", .jstr "t"), ("timestamp", .jstr "ts"),
      ("extractorVersion", .jstr "1.0.0")]) = false :=
  validate_structural_iff.2 _ (by decide)

/-- Claim C10: every one of the seven transformation kinds acts only on
string values, so a non-string pipeline value — e.g. one already converted
to a number or boolean — passes through every single step and through any
whole transformation list unchanged. -/
theorem transformations_nonstring_identity :
    (∀ (E : RegexEngine) (v : TValue) (t : FieldTransformation),
        v.isStr = false → applyTransformation E v t = v)
  ∧ (∀ (E : RegexEngine) (v : TValue) (ts : List FieldTransformation),
        v.isStr = false → applyTransformations E v ts = v) := by
  have hstep : ∀ (E : RegexEngine) (v : TValue) (t : FieldTransformation),
      v.isStr = false → applyTransformation E v t = v := by
    intro E v t hv
    rcases t with ⟨ty, pat, rep, fl⟩
    cases v with
    | str s => simp [TValue.isStr] at hv
    | num q => cases ty <;> cases pat <;> cases rep <;> rfl
    | bool b => cases ty <;> cases pat <;> cases rep <;> rfl
  refine ⟨hstep, ?_⟩
  intro E v ts hv
  induction ts with
  | nil => rfl
  | cons t ts ih =>
      rw [applyTransformations, List.foldl_cons, hstep E v t hv]
      exact ih

theorem transformations_nonstring_identity_witness :
    applyTransformations inertEngine (.num (mkRat 1399 1))
      [{ type := .trim }, { type := .uppercase }, { type := .parseNumber }]
      = .num (mkRat 1399 1) :=
  transformations_nonstring_identity.2 inertEngine (.num (mkRat 1399 1)) _ rfl

/-- Claim C9: a `replace` transformation whose replacement is the empty
string, or which has no pattern, is skipped by the truthiness guard and
acts as the identity on every value — so `replace` can never delete
matched text by substituting the empty string. -/
theorem replace_noop_edge :
    ∀ (E : RegexEngine) (v : TValue) (t : FieldTransformation),
      t.type = .replace →
      (t.replacement = some "" ∨ t.pattern = none) →
      applyTransformation E v t = v := by
  intro E v t hty hedge
  rcases t with ⟨ty, pat, rep, fl⟩
  cases hty
  rcases hedge with h | h
  · cases h
    cases pat with
    | none => cases v <;> rfl
    | some p =>
        cases v <;>
          simp [applyTransformation, show ("" : String).data.isEmpty = true from rfl]
  · cases h
    cases rep <;> cases v <;> rfl

theorem replace_noop_edge_witness :
    applyTransformation inertEngine (.str "price: $9.99")
      { type := .replace, pattern := some "\\$", replacement := some "" }
      = .str "price: $9.99" :=
  replace_noop_edge inertEngine (.str "price: $9.99") _ rfl (Or.inl rfl)

/-- Claim C4: transformations apply in listed order, left to right, each
consuming the prior output; `parseNumber` strips every character other
than digits, `.` and `-`, parses the rest as a (decimal) float and keeps
the original string when that parse is NaN; so the selector
`{jsonLd := "0.offers.price", transformations := [parseNumber]}` against
a payload whose `jsonLd[0].offers.price` is `"1399.00"` resolves to the
number 1399, not a string. -/
theorem pipeline_order_and_parseNumber :
    (∀ (E : RegexEngine) (v : TValue) (t : FieldTransformation)
        (ts : List FieldTransformation),
        applyTransformations E v (t :: ts) =
          applyTransformations E (applyTransformation E v t) ts)
  ∧ (∀ (E : RegexEngine) (s : String),
        jsParseFloat (stripNonNumeric s) = none →
        applyTransformation E (.str s) parseNumberT = .str s)
  ∧ (∀ (E : RegexEngine) (s : String) (q : ℚ),
        jsParseFloat (stripNonNumeric s) = some q →
        applyTransformation E (.str s) parseNumberT = .num q)
  ∧ (∀ E : RegexEngine, processSelector E priceData priceSel =
        some { value := .num 1399, source := .jsonLd,
               path := "0.offers.price", confidence := sourceConfidence .jsonLd }) := by
  refine ⟨?_, ?_, ?_, ?_⟩
  · intro E v t ts
    rfl
  · intro E s h
    simp [applyTransformation, parseNumberT, h]
  · intro E s q h
    simp [applyTransformation, parseNumberT, h]
  · intro E
    have hv : (1399 : ℚ) = mkRat 1399 1 := by norm_num [Rat.mkRat_eq_div]
    rw [hv]
    rfl

theorem pipeline_order_and_parseNumber_witness :
    applyTransformation inertEngine (.str "1399.00") parseNumberT
      = .num (mkRat 1399 1) :=
  pipeline_order_and_parseNumber.2.2.1 inertEngine "1399.00" (mkRat 1399 1) (by decide)

/-- Counterexample to claim C6 as stated: under an engine where the match
succeeds and capture group 1 is present but empty (as JS `a(b*)` against
`"ac"`), the standalone regex step does not return the group — the
truthiness fallback `match[1] || match[0]` returns the full match
instead. -/
theorem standalone_regex_group_cex :
    emptyGroupEngine.rmatch "a(b*)" none "ac" = some ("a", some "") ∧
    applyRegexStep emptyGroupEngine (some "a(b*)") (.str "ac") = .str "a" ∧
    TValue.str "a" ≠ TValue.str "" :=
  ⟨rfl, by decide, by decide⟩

/-- Claim C6 (amended): when the post-pipeline value is a string and the
selector carries a truthy standalone regex, a successful match replaces
the value with capture group 1 when that group is present and non-empty,
and with the full match otherwise (group absent or empty); a failed
match, a missing or empty regex, or a non-string value leaves the value
unchanged. -/
theorem standalone_regex_step :
    (∀ (E : RegexEngine) (rx : Option String) (v : TValue),
        v.isStr = false → applyRegexStep E rx v = v)
  ∧ (∀ (E : RegexEngine) (v : TValue), applyRegexStep E none v = v)
  ∧ (∀ (E : RegexEngine) (s : String), applyRegexStep E (some "") (.str s) = .str s)
  ∧ (∀ (E : RegexEngine) (pat s : String), pat.data.isEmpty = false →
        E.rmatch pat none s = none →
        applyRegexStep E (some pat) (.str s) = .str s)
  ∧ (∀ (E : RegexEngine) (pat s full : String), pat.data.isEmpty = false →
        E.rmatch pat none s = some (full, none) →
        applyRegexStep E (some pat) (.str s) = .str full)
  ∧ (∀ (E : RegexEngine) (pat s full g : String), pat.data.isEmpty = false →
        g.data.isEmpty = false →
        E.rmatch pat none s = some (full, some g) →
        applyRegexStep E (some pat) (.str s) = .str g)
  ∧ (∀ (E : RegexEngine) (pat s full : String), pat.data.isEmpty = false →
        E.rmatch pat none s = some (full, some "") →
        applyRegexStep E (some pat) (.str s) = .str full) := by
  refine ⟨?_, ?_, ?_, ?_, ?_, ?_, ?_⟩
  · intro E rx v hv
    cases v with
    | str s => simp [TValue.isStr] at hv
    | num q => cases rx <;> rfl
    | bool b => cases rx <;> rfl
  · intro E v
    cases v <;> rfl
  · intro E s
    simp [applyRegexStep, show ("" : String).data.isEmpty = true from rfl]
  · intro E pat s hpe hm
    simp [applyRegexStep, hpe, hm]
  · intro E pat s full hpe hm
    simp [applyRegexStep, hpe, hm, jsGroupOrFull]
  · intro E pat s full g hpe hg hm
    simp [applyRegexStep, hpe, hm, jsGroupOrFull, hg]
  · intro E pat s full hpe hm
    simp [applyRegexStep, hpe, hm, jsGroupOrFull,
      show ("" : String).data.isEmpty = true from rfl]

theorem standalone_regex_step_witness :
    applyRegexStep emptyGroupEngine (some "a(b*)") (.str "ac") = .str "a" :=
  standalone_regex_step.2.2.2.2.2.2 emptyGroupEngine "a(b*)" "ac" "a" rfl rfl

/-- A bracket-free segment is a plain property access with the loop's
null/undefined check. -/
theorem evalSegment_simple {c : JValue} {p : String}
    (h : (p.data.contains '[' && p.data.contains ']') = false) :
    evalSegment c p =
      match getProp c p with
      | some v => if v.isNull then none else some v
      | none => none := by
  rw [evalSegment, h]
  simp

/-- Over bracket-free segments the evaluator loop is exactly the plain
property chain. -/
theorem foldlM_evalSegment_simple :
    ∀ (parts : List String) (root : JValue),
      (∀ p ∈ parts, (p.data.contains '[' && p.data.contains ']') = false) →
      parts.foldlM evalSegment root = propChain root parts := by
  intro parts
  induction parts with
  | nil => intro root _; rfl
  | cons p ps ih =>
      intro root h
      rw [List.foldlM_cons, evalSegment_simple (h p (List.mem_cons_self _ _))]
      cases hg : getProp root p with
      | none => simp [propChain, hg]
      | some v =>
          cases hnull : v.isNull with
          | true => simp [propChain, hg, hnull]
          | false =>
              simp only [propChain, hg, hnull, Bool.false_eq_true, if_false]
              simpa using ih v (fun q hq => h q (List.mem_cons_of_mem _ hq))

/-- A truthy value is not null. -/
theorem truthy_not_null {v : JValue} (h : v.truthy = true) : v.isNull = false := by
  cases v <;> simp_all [JValue.truthy, JValue.isNull]

/-- The property chain never hands back a null cursor when started from a
non-null root. -/
theorem propChain_not_null :
    ∀ (parts : List String) (root leaf : JValue), root.isNull = false →
      propChain root parts = some leaf → leaf.isNull = false := by
  intro parts
  induction parts with
  | nil =>
      intro root leaf hroot h
      rw [propChain] at h
      cases h
      exact hroot
  | cons p ps ih =>
      intro root leaf hroot h
      rw [propChain] at h
      cases hg : getProp root p with
      | none => rw [hg] at h; exact absurd h (by simp)
      | some v =>
          rw [hg] at h
          dsimp only at h
          cases hnull : v.isNull with
          | true => rw [hnull] at h; exact absurd h (by simp)
          | false =>
              rw [hnull] at h
              simp only [Bool.false_eq_true, if_false] at h
              exact ih v leaf hnull h

/-- Claim C3: the path evaluator is total — it returns a string or null
for every root and path and can never raise (the embedding is a total
function into `Option String`); an empty/null root or an empty path gives
null; a path consisting of existing (bracket-free) property names returns
the JS-stringified leaf; and a path touching a missing property returns
null. -/
theorem evaluator_totality_and_simple_paths :
    (∀ (root : JValue) (path : String),
        evaluateStructuredDataPath root path = none ∨
          ∃ s, evaluateStructuredDataPath root path = some s)
  ∧ (∀ path : String, evaluateStructuredDataPath .jnull path = none)
  ∧ (∀ root : JValue, evaluateStructuredDataPath root "" = none)
  ∧ (∀ (root : JValue) (path : String) (parts : List String) (leaf : JValue),
        root.truthy = true → path.data.isEmpty = false →
        splitDot path.data = parts →
        (∀ p ∈ parts, (p.data.contains '[' && p.data.contains ']') = false) →
        propChain root parts = some leaf →
        evaluateStructuredDataPath root path = some (jsToString leaf))
  ∧ (∀ (root : JValue) (path : String) (parts pre post : List String)
        (q : String) (c : JValue),
        splitDot path.data = parts →
        (∀ p ∈ parts, (p.data.contains '[' && p.data.contains ']') = false) →
        parts = pre ++ q :: post →
        propChain root pre = some c → getProp c q = none →
        evaluateStructuredDataPath root path = none) := by
  refine ⟨?_, ?_, ?_, ?_, ?_⟩
  · intro root path
    cases h : evaluateStructuredDataPath root path with
    | none => exact Or.inl rfl
    | some s => exact Or.inr ⟨s, rfl⟩
  · intro path
    rw [evaluateStructuredDataPath]
    rw [if_pos (by rw [show JValue.jnull.truthy = false from rfl]; rfl)]
  · intro root
    rw [evaluateStructuredDataPath]
    rw [if_pos (by rw [show ("" : String).data.isEmpty = true from rfl, Bool.or_true])]
  · intro root path parts leaf hroot hpath hsplit hsimple hchain
    rw [evaluateStructuredDataPath]
    rw [if_neg (by rw [hroot, hpath]; simp)]
    rw [hsplit, foldlM_evalSegment_simple parts root hsimple, hchain]
    dsimp only
    rw [propChain_not_null parts root leaf (truthy_not_null hroot) hchain]
    simp
  · intro root path parts pre post q c hsplit hsimple hparts hpre hq
    rw [evaluateStructuredDataPath]
    by_cases hcond : (!root.truthy || path.data.isEmpty) = true
    · rw [if_pos hcond]
    · rw [if_neg hcond]
      rw [hsplit, hparts, List.foldlM_append]
      rw [foldlM_evalSegment_simple pre root
        (fun p hp => hsimple p (by rw [hparts]; exact List.mem_append_left _ hp))]
      rw [hpre]
      show (match ((q :: post).foldlM evalSegment c : Option JValue) with
        | some v => if v.isNull = true then none else some (jsToString v)
        | none => none) = none
      rw [List.foldlM_cons,
        evalSegment_simple (hsimple q (by rw [hparts]; exact List.mem_append_right _ (List.mem_cons_self _ _)))]
      rw [hq]
      rfl

theorem evaluator_totality_witness :
    evaluateStructuredDataPath (.jobj [("a", .jobj [("b", .jnum (mkRat 7 1))])]) "a.b"
      = some "7" :=
  (evaluator_totality_and_simple_paths.2.2.2.1
      (.jobj [("a", .jobj [("b", .jnum (mkRat 7 1))])]) "a.b" ["a", "b"]
      (.jnum (mkRat 7 1)) rfl rfl rfl (by decide) rfl).trans (by decide)

/-- Claim C2: bracket semantics of the path evaluator.  Index application
demands a sequence cursor at every step (a non-array cursor or an
out-of-range index aborts with null, a present non-null element advances);
a segment carrying a non-empty property name before its brackets first
advances into that property and then applies each scanned index left to
right, while a segment whose characters before the first `[` are empty
applies its indices directly to the current cursor; and concretely,
`"[0][0][0].value"` on a triply nested array reaches `"deep"`,
`"array[0]"` picks `"item1"`, and the out-of-range `"array[10]"` gives
null. -/
theorem bracket_index_semantics :
    (∀ (c : JValue) (i : Nat) (rest : List Nat),
        c.isArr = false → applyIndices c (i :: rest) = none)
  ∧ (∀ (a : List JValue) (i : Nat) (rest : List Nat),
        a.length ≤ i → applyIndices (.jarr a) (i :: rest) = none)
  ∧ (∀ (a : List JValue) (i : Nat) (rest : List Nat) (v : JValue),
        a[i]? = some v → v.isNull = false →
        applyIndices (.jarr a) (i :: rest) = applyIndices v rest)
  ∧ (∀ (c : JValue) (part propertyName : String) (idxs : List Nat) (v : JValue),
        part.data.contains '[' = true → part.data.contains ']' = true →
        String.mk (part.data.takeWhile (fun ch => ch ≠ '[')) = propertyName →
        scanIndices (part.data.dropWhile (fun ch => ch ≠ '[')) = idxs →
        idxs.isEmpty = false → propertyName.data.isEmpty = false →
        getProp c propertyName = some v → v.isNull = false →
        evalSegment c part = applyIndices v idxs)
  ∧ (∀ (c : JValue) (part : String) (idxs : List Nat),
        part.data.contains '[' = true → part.data.contains ']' = true →
        (part.data.takeWhile (fun ch => ch ≠ '[')).isEmpty = true →
        scanIndices (part.data.dropWhile (fun ch => ch ≠ '[')) = idxs →
        idxs.isEmpty = false →
        evalSegment c part = applyIndices c idxs)
  ∧ evaluateStructuredDataPath (.jarr [.jarr [.jarr [.jobj [("value", .jstr "deep")]]]])
      "[0][0][0].value" = some "deep"
  ∧ evaluateStructuredDataPath
      (.jobj [("array", .jarr [.jstr "item1", .jstr "item2", .jstr "item3"])])
      "array[0]" = some "item1"
  ∧ evaluateStructuredDataPath
      (.jobj [("array", .jarr [.jstr "item1", .jstr "item2", .jstr "item3"])])
      "array[10]" = none := by
  refine ⟨?_, ?_, ?_, ?_, ?_, by decide, by decide, by decide⟩
  · intro c i rest hc
    cases c <;> simp_all [JValue.isArr, applyIndices]
  · intro a i rest hlen
    simp [applyIndices, List.getElem?_eq_none hlen]
  · intro a i rest v hv hnull
    simp [applyIndices, hv, hnull]
  · intro c part propertyName idxs v h1 h2 hname hscan hne hpne hget hnull
    have hpne2 : (part.data.takeWhile (fun ch => ch ≠ '[')).isEmpty = false := by
      rw [← hname] at hpne
      exact hpne
    rw [evalSegment, h1, h2]
    simp only [Bool.and_self, if_true]
    simp only [hscan, hne, Bool.false_eq_true, if_false, hpne2, hname, hget, hnull]
  · intro c part idxs h1 h2 hpe hscan hne
    rw [evalSegment, h1, h2]
    simp only [Bool.and_self, if_true]
    simp only [hscan, hne, Bool.false_eq_true, if_false, hpe, if_true]

theorem bracket_index_semantics_witness :
    applyIndices (.jarr [.jstr "item1"]) [0] = applyIndices (.jstr "item1") [] :=
  bracket_index_semantics.2.2.1 [.jstr "item1"] 0 [] (.jstr "item1") rfl rfl
